import Mathlib

/-!
Verification of the `ykenan_file` utility library.

The development shallowly embeds the Python sources
`src/ykenan_file/__init__.py` and `src/ykenan_file/_read_.py`:

* directory enumeration (`entry_contents`, `entry_contents_path`) runs over an
  explicit list of directory entries, one entry per `os.scandir` result, and
  returns `Except` so that a raised `ValueError` is observable;
* format dispatch in `Read.get_content` maps a file name to the parser that
  the chain of suffix tests would invoke (`none` when the chain falls through
  and Python implicitly returns `None`);
* `read_file_line` runs over the list of raw lines the successive `readline`
  calls would return, the end of the list playing the role of end of file
  (where `readline` yields the empty string);
* the group-by aggregation helpers and the sequential merge keep the pandas
  semantics of the calls they delegate to: sample statistics use `ddof = 1`
  (variance and deviations of a one-element sample are NaN, embedded as
  `none`), rank method `first` breaks ties by original row position, and
  `pd.merge` is the inner equi-join on the key column.
-/

/-! ### Directory entries and enumeration (`entry_contents`, `entry_contents_path`) -/

/-- The kind of a directory entry as seen through `os.DirEntry.is_file` /
`os.DirEntry.is_dir`: a regular file, a directory, or anything else
(for instance a broken symlink or a socket, for which both predicates are
false). -/
inductive EntryKind where
  | file
  | dir
  | other
deriving DecidableEq

/-- One `os.DirEntry` produced by `os.scandir`: a name, a full path and a
kind. -/
structure DirEntry where
  name : String
  path : String
  kind : EntryKind
deriving DecidableEq

/-- `os.DirEntry.is_file`. -/
def DirEntry.is_file (e : DirEntry) : Bool :=
  decide (e.kind = EntryKind.file)

/-- `os.DirEntry.is_dir`. -/
def DirEntry.is_dir (e : DirEntry) : Bool :=
  decide (e.kind = EntryKind.dir)

/-- `entry_contents(path, type_)` from `__init__.py`: iterate over the scandir
entries; with `type_ == 0` collect every name, with `type_ == 1` collect the
name of a file entry, with `type_ == 2` the name of a directory entry, and in
every remaining case raise `ValueError("type input error, type is 0 or 1 or
2.")`. -/
def entry_contents : List DirEntry → Int → Except String (List String)
  | [], _ => Except.ok []
  | e :: rest, t =>
    if t = 0 then
      (entry_contents rest t).map (fun l => e.name :: l)
    else if t = 1 ∧ e.is_file = true then
      (entry_contents rest t).map (fun l => e.name :: l)
    else if t = 2 ∧ e.is_dir = true then
      (entry_contents rest t).map (fun l => e.name :: l)
    else
      Except.error "type input error, type is 0 or 1 or 2."

/-- `entry_contents_path(path, type_)` from `__init__.py`: same control flow
as `entry_contents` but collecting `entry.path` instead of `entry.name`. -/
def entry_contents_path : List DirEntry → Int → Except String (List String)
  | [], _ => Except.ok []
  | e :: rest, t =>
    if t = 0 then
      (entry_contents_path rest t).map (fun l => e.path :: l)
    else if t = 1 ∧ e.is_file = true then
      (entry_contents_path rest t).map (fun l => e.path :: l)
    else if t = 2 ∧ e.is_dir = true then
      (entry_contents_path rest t).map (fun l => e.path :: l)
    else
      Except.error "type input error, type is 0 or 1 or 2."

/-! ### Read format dispatch (`Read.get_content` in both modules) -/

/-- Python's `str.endswith`, evaluated on the character sequences of the two
strings. -/
def ends_with (s suf : String) : Bool :=
  suf.data.isSuffixOf s.data

/-- The pandas parser selected by `Read.get_content`. -/
inductive ParserKind where
  | table
  | csv
  | excel
  | html
  | json
deriving DecidableEq

namespace YkenanFile

/-- `Read.get_content` of `__init__.py`: the chain of suffix tests, returning
the parser that would be invoked, or `none` when every test fails and the
Python function implicitly returns `None`. -/
def get_content (file : String) : Option ParserKind :=
  if ends_with file ".txt" || ends_with file ".bed" then some ParserKind.table
  else if ends_with file ".csv" then some ParserKind.csv
  else if ends_with file ".xls" || ends_with file ".xlsx" then some ParserKind.excel
  else if ends_with file ".html" || ends_with file ".htm" then some ParserKind.html
  else if ends_with file ".json" then some ParserKind.json
  else none

end YkenanFile

namespace ReadModule

/-- `Read.get_content` of `_read_.py`: identical to the `__init__.py` version
except that the first test also accepts the `.tsv` suffix. -/
def get_content (file : String) : Option ParserKind :=
  if ends_with file ".txt" || ends_with file ".bed" || ends_with file ".tsv" then some ParserKind.table
  else if ends_with file ".csv" then some ParserKind.csv
  else if ends_with file ".xls" || ends_with file ".xlsx" then some ParserKind.excel
  else if ends_with file ".html" || ends_with file ".htm" then some ParserKind.html
  else if ends_with file ".json" then some ParserKind.json
  else none

end ReadModule

/-! ### `read_file_line` -/

/-- Python's `str.strip()` with no argument: drop whitespace from both ends
of the string, evaluated on the character sequence. -/
def py_strip (s : String) : String :=
  ⟨((s.data.dropWhile Char.isWhitespace).reverse.dropWhile
      Char.isWhitespace).reverse⟩

/-- `read_file_line(path)`: the loop strips the line returned by `readline`,
appends the stripped line, and breaks as soon as the stripped line is empty.
The input list holds the raw lines of the file; past its end `readline`
returns the empty string, which is why the empty-list case yields `[""]`. -/
def read_file_line : List String → List String
  | [] => [""]
  | l :: ls =>
    let s := py_strip l
    if s = "" then [s] else s :: read_file_line ls

/-! ### Tables and group-by aggregation (`Create.add_sum_by_group`,
`Create.add_calculation_by_group`, `Create.add_rank_by_group`)

The aggregation helpers only touch two columns of the frame: the group column
and the selected numeric column, so a row of the input frame is embedded as a
pair of its group-key value and its numeric value.  The group-by statistics
follow the pandas calls the source delegates to: `var`, `sem` and `std` use
the sample convention `ddof = 1` and are NaN (embedded as `none`) on a
one-element sample; NaN results of the floating computation are embedded as
`none` throughout.  Group keys are taken in first-occurrence order (pandas
sorts them, which permutes the rows of the aggregate tables but no claim
depends on row order).
-/

/-- A row of the input frame restricted to the group column and the selected
numeric column. -/
structure Row where
  key : String
  value : ℚ
deriving DecidableEq

/-- The values of the selected column belonging to group `g`, in row order
(the order pandas presents a group in). -/
def valuesOf (df : List Row) (g : String) : List ℚ :=
  (df.filter (fun r => r.key == g)).map Row.value

/-- The distinct group-key values of the frame. -/
def groupKeys (df : List Row) : List String :=
  (df.map Row.key).dedup

/-- An aggregate frame as produced by `groupby(...).agg(...).reset_index()`
followed by the column renaming in the source: its column names in order, and
one row per group, pairing a group key with the aggregated value. -/
structure AggTable (α : Type) where
  columns : List String
  rows : List (String × α)

/-- Build the aggregate table of one statistic: the source computes
`df.groupby(group)[column].stat().reset_index()` and renames the columns to
`[group, column + tag]`. -/
def agg_col {α : Type} (df : List Row) (group column tag : String)
    (f : List ℚ → α) : AggTable α :=
  ⟨[group, column ++ tag],
   (groupKeys df).map (fun k => (k, f (valuesOf df k)))⟩

/-- `groupby(group)[column].size()`: the number of rows in the group. -/
def column_size (xs : List ℚ) : Nat :=
  xs.length

/-- `groupby(group)[column].mean()`: the arithmetic mean of the sample. -/
def column_mean (xs : List ℚ) : Option ℚ :=
  if xs.length = 0 then none
  else some (xs.sum / (xs.length : ℚ))

/-- `groupby(group)[column].var()`: the sample variance with `ddof = 1`,
which pandas defines as NaN when the sample has at most one element. -/
def column_var (xs : List ℚ) : Option ℚ :=
  if xs.length ≤ 1 then none
  else some ((xs.map (fun x => (x - xs.sum / (xs.length : ℚ)) ^ 2)).sum
    / ((xs.length : ℚ) - 1))

/-- `groupby(group)[column].std()`: the square root of the sample variance,
NaN exactly where the variance is. -/
noncomputable def column_std (xs : List ℚ) : Option ℝ :=
  (column_var xs).map (fun v => Real.sqrt (v : ℝ))

/-- `groupby(group)[column].sem()`: the standard error of the mean, the
sample standard deviation divided by the square root of the sample size; NaN
exactly where the standard deviation is. -/
noncomputable def column_sem (xs : List ℚ) : Option ℝ :=
  (column_std xs).map (fun s => s / Real.sqrt (xs.length : ℝ))

/-- `groupby(group)[column].median()`: the middle element of the sorted
sample, or the mean of the two middle elements for an even sample size. -/
def column_median (xs : List ℚ) : Option ℚ :=
  if xs.length = 0 then none
  else
    let s := xs.insertionSort (· ≤ ·)
    if xs.length % 2 = 1 then some (s.getD (xs.length / 2) 0)
    else some ((s.getD (xs.length / 2 - 1) 0 + s.getD (xs.length / 2) 0) / 2)

/-- `groupby(group)[column].min()`. -/
def column_min (xs : List ℚ) : Option ℚ :=
  xs.min?

/-- `groupby(group)[column].max()`. -/
def column_max (xs : List ℚ) : Option ℚ :=
  xs.max?

/-- `groupby(group)[column].sum()`: always a number. -/
def column_sum (xs : List ℚ) : ℚ :=
  xs.sum

/-- `groupby(group)[column].prod()`: always a number. -/
def column_prod (xs : List ℚ) : ℚ :=
  xs.prod

/-- `Create.add_sum_by_group(df, group, column)`: the per-group sum table,
with columns renamed to `[group, column + "_sum"]`. -/
def add_sum_by_group (df : List Row) (group column : String) : AggTable ℚ :=
  agg_col df group column "_sum" column_sum

/-- The ten aggregate tables built by `Create.add_calculation_by_group`, in
source order.  In Python they are returned as one list; here the statistics
carry different value types, so the list is embedded as a structure with one
field per table. -/
structure CalcTables where
  size : AggTable Nat
  mean : AggTable (Option ℚ)
  var : AggTable (Option ℚ)
  sem : AggTable (Option ℝ)
  std : AggTable (Option ℝ)
  median : AggTable (Option ℚ)
  min : AggTable (Option ℚ)
  max : AggTable (Option ℚ)
  sum : AggTable ℚ
  prod : AggTable ℚ

/-- `Create.add_calculation_by_group(df, group, column)`: one aggregate table
per statistic, each keyed by the group column and with the value column named
`column + "_size"`, `column + "_mean"`, and so on; the sum table is obtained
through `add_sum_by_group` exactly as in the source. -/
noncomputable def add_calculation_by_group (df : List Row)
    (group column : String) : CalcTables :=
  ⟨agg_col df group column "_size" column_size,
   agg_col df group column "_mean" column_mean,
   agg_col df group column "_var" column_var,
   agg_col df group column "_sem" column_sem,
   agg_col df group column "_std" column_std,
   agg_col df group column "_median" column_median,
   agg_col df group column "_min" column_min,
   agg_col df group column "_max" column_max,
   add_sum_by_group df group column,
   agg_col df group column "_prod" column_prod⟩

/-! ### Rank by group (`Create.add_rank_by_group`, method `first`) -/

/-- The group key of row `i` of the frame. -/
def keyAt (df : List Row) (i : Nat) : String :=
  (df.getD i ⟨"", 0⟩).key

/-- The numeric value of row `i` of the frame. -/
def valueAt (df : List Row) (i : Nat) : ℚ :=
  (df.getD i ⟨"", 0⟩).value

/-- The row positions belonging to group `g`, in row order. -/
def group_idx (df : List Row) (g : String) : List Nat :=
  (List.range df.length).filter (fun i => keyAt df i == g)

/-- The rank pandas assigns to row `i` under
`df.groupby(group)[column].rank("first")`: one plus the number of rows of the
same group whose value is smaller, or equal with an earlier position —
ascending ranks with ties broken by order of appearance. -/
def first_rank (df : List Row) (i : Nat) : Nat :=
  1 + ((group_idx df (keyAt df i)).filter (fun j =>
    decide (valueAt df j < valueAt df i ∨
      (valueAt df j = valueAt df i ∧ j < i)))).length

/-- The `first_rank` column that `Create.add_rank_by_group` appends,
restricted to the rows of group `g` (in row order). -/
def add_rank_by_group_first (df : List Row) (g : String) : List Nat :=
  (group_idx df g).map (first_rank df)

/-! ### Sequential merge (`Create.merge_files`) -/

/-- A frame viewed by the merge: each row is its key-column value paired with
the remaining column values in order. -/
abbrev PTable := List (String × List ℚ)

/-- `pd.merge(left, right, on)`: the inner equi-join on the key column; a
left row matches every right row with an equal key, and the matched rows'
remaining columns are laid side by side. -/
def pd_merge (A B : PTable) : PTable :=
  A.flatMap (fun a => (B.filter (fun b => b.1 == a.1)).map
    (fun b => (a.1, a.2 ++ b.2)))

/-- `Create.merge_files(files, on)`: start from `files[0]` and fold
`pd.merge` over the remaining frames left to right.  The Python function
indexes `files[0]`, so the embedding takes the first frame as a separate
argument. -/
def merge_files (first : PTable) (rest : List PTable) : PTable :=
  rest.foldl pd_merge first

/-! ## Helper lemmas -/

theorem read_file_line_eq (lines : List String) :
    read_file_line lines
      = (lines.takeWhile (fun l => !(py_strip l == ""))).map py_strip ++ [""] := by
  induction lines with
  | nil => rfl
  | cons l ls ih =>
    by_cases h : py_strip l = ""
    · simp [read_file_line, h]
    · simp [read_file_line, h, ih]

theorem takeWhile_append_cons {α : Type} (p : α → Bool) (pre : List α) (e : α)
    (suf : List α) :
    (∀ l ∈ pre, p l = true) → p e = false →
      (pre ++ e :: suf).takeWhile p = pre := by
  induction pre with
  | nil =>
    intro _ he
    simp [List.takeWhile_cons, he]
  | cons a as ih =>
    intro hpre he
    have ha : p a = true := hpre a (List.mem_cons_self a as)
    simp only [List.cons_append, List.takeWhile_cons, ha, if_true]
    rw [ih (fun l hl => hpre l (List.mem_cons_of_mem a hl)) he]

theorem lookup_map_self {α : Type} (keys : List String) (f : String → α)
    (g : String) (hg : g ∈ keys) :
    (keys.map (fun k => (k, f k))).lookup g = some (f g) := by
  induction keys with
  | nil => cases hg
  | cons k ks ih =>
    by_cases h : g = k
    · subst h
      simp [List.lookup]
    · have hg' : g ∈ ks := by
        cases hg with
        | head => exact absurd rfl h
        | tail _ hmem => exact hmem
      have hbeq : (g == k) = false := by simp [h]
      simp [List.lookup, hbeq, ih hg']

theorem pd_merge_disjoint_eq_nil (A B : PTable)
    (h : ∀ ka ∈ A.map Prod.fst, ∀ kb ∈ B.map Prod.fst, ka ≠ kb) :
    pd_merge A B = [] := by
  induction A with
  | nil => rfl
  | cons a A' ih =>
    have hfilter : B.filter (fun b => b.1 == a.1) = [] := by
      rw [List.filter_eq_nil_iff]
      intro b hb
      have hne : a.1 ≠ b.1 :=
        h a.1 (List.mem_map_of_mem Prod.fst (List.mem_cons_self a A'))
          b.1 (List.mem_map_of_mem Prod.fst hb)
      simp [Ne.symm hne]
    have ih' : pd_merge A' B = [] := by
      refine ih fun ka hka kb hkb => h ka ?_ kb hkb
      rw [List.map_cons]
      exact List.mem_cons_of_mem _ hka
    simp only [pd_merge, List.flatMap_cons, hfilter, List.map_nil,
      List.nil_append]
    simpa [pd_merge] using ih'

/-! ## Claims -/

/-- C1: failing-input evaluation.  The claim says that with the files-only
selector (1) the directory children are filtered out rather than causing an
error, and symmetrically for the directories-only selector (2).  On a
directory containing the file `a.txt` and the subdirectory `d`, the code
instead raises `ValueError("type input error, type is 0 or 1 or 2.")` in both
cases: the trailing `else` of the selector dispatch fires on every entry of
the non-selected kind. -/
theorem entry_contents_errors_on_mixed_directory :
    entry_contents
        [⟨"a.txt", "/p/a.txt", EntryKind.file⟩, ⟨"d", "/p/d", EntryKind.dir⟩] 1
      = Except.error "type input error, type is 0 or 1 or 2." ∧
    entry_contents_path
        [⟨"a.txt", "/p/a.txt", EntryKind.file⟩, ⟨"d", "/p/d", EntryKind.dir⟩] 2
      = Except.error "type input error, type is 0 or 1 or 2." :=
  ⟨rfl, rfl⟩

/-- C2 counterexample: the claim fails in both directions.  On an empty
directory the invalid selector 3 raises nothing and returns the empty list
(the validation sits inside the scandir loop), and the `ValueError` is also
raised for the valid selector 1 on a directory holding one subdirectory — so
the error is not raised for every directory with an invalid selector, nor
raised only when the selector is invalid. -/
theorem entry_contents_invalid_selector_counterexample :
    entry_contents ([] : List DirEntry) 3 = Except.ok [] ∧
    entry_contents [⟨"d", "/p/d", EntryKind.dir⟩] 1
      = Except.error "type input error, type is 0 or 1 or 2." :=
  ⟨rfl, rfl⟩

/-- C2 (amended): for every directory with at least one entry and every
selector not in {0, 1, 2}, `entry_contents` raises
`ValueError("type input error, type is 0 or 1 or 2.")`, the message naming
the allowed values; on an empty directory any selector returns the empty list
without error. -/
theorem entry_contents_invalid_selector_error (entries : List DirEntry)
    (t : Int) (hne : entries ≠ []) (h0 : t ≠ 0) (h1 : t ≠ 1) (h2 : t ≠ 2) :
    entry_contents entries t
      = Except.error "type input error, type is 0 or 1 or 2." ∧
    entry_contents [] t = Except.ok [] := by
  refine ⟨?_, rfl⟩
  cases entries with
  | nil => exact absurd rfl hne
  | cons e rest =>
    have c1 : ¬ (t = 1 ∧ e.is_file = true) := fun hc => h1 hc.1
    have c2 : ¬ (t = 2 ∧ e.is_dir = true) := fun hc => h2 hc.1
    simp only [entry_contents, if_neg h0, if_neg c1, if_neg c2]

/-- Witness for C2 (amended), at the directory `[d]` and selector 3. -/
theorem entry_contents_invalid_selector_error_witness :
    (([⟨"d", "/p/d", EntryKind.dir⟩] : List DirEntry) ≠ []
      ∧ (3 : Int) ≠ 0 ∧ (3 : Int) ≠ 1 ∧ (3 : Int) ≠ 2) ∧
    (entry_contents [⟨"d", "/p/d", EntryKind.dir⟩] 3
        = Except.error "type input error, type is 0 or 1 or 2." ∧
      entry_contents [] 3 = Except.ok []) :=
  ⟨⟨by decide, by decide, by decide, by decide⟩,
   entry_contents_invalid_selector_error [⟨"d", "/p/d", EntryKind.dir⟩] 3
     (by decide) (by decide) (by decide) (by decide)⟩

/-- C3: on a file path whose suffix is none of the recognized formats
(`.txt`/`.bed`/`.tsv`, `.csv`, `.xls`/`.xlsx`, `.html`/`.htm`, `.json`),
`get_content` of both modules falls through every suffix test and returns
`None` without raising and without selecting any parser. -/
theorem get_content_unsupported_suffix_none (file : String)
    (h : (ends_with file ".txt" || ends_with file ".bed" ||
          ends_with file ".tsv" || ends_with file ".csv" ||
          ends_with file ".xls" || ends_with file ".xlsx" ||
          ends_with file ".html" || ends_with file ".htm" ||
          ends_with file ".json") = false) :
    YkenanFile.get_content file = none ∧ ReadModule.get_content file = none := by
  simp only [Bool.or_eq_false_iff] at h
  obtain ⟨⟨⟨⟨⟨⟨⟨⟨h1, h2⟩, h3⟩, h4⟩, h5⟩, h6⟩, h7⟩, h8⟩, h9⟩ := h
  exact ⟨by simp [YkenanFile.get_content, h1, h2, h4, h5, h6, h7, h8, h9],
         by simp [ReadModule.get_content, h1, h2, h3, h4, h5, h6, h7, h8, h9]⟩

/-- Witness for C3, at the file name `archive.dat`. -/
theorem get_content_unsupported_suffix_none_witness :
    ((ends_with "archive.dat" ".txt" || ends_with "archive.dat" ".bed" ||
      ends_with "archive.dat" ".tsv" || ends_with "archive.dat" ".csv" ||
      ends_with "archive.dat" ".xls" || ends_with "archive.dat" ".xlsx" ||
      ends_with "archive.dat" ".html" || ends_with "archive.dat" ".htm" ||
      ends_with "archive.dat" ".json") = false) ∧
    (YkenanFile.get_content "archive.dat" = none
      ∧ ReadModule.get_content "archive.dat" = none) :=
  ⟨by decide, get_content_unsupported_suffix_none "archive.dat" (by decide)⟩

/-- C6: merging two frames whose key columns share no value yields a frame
with zero rows. -/
theorem merge_files_disjoint_keys_empty (A B : PTable)
    (h : ∀ ka ∈ A.map Prod.fst, ∀ kb ∈ B.map Prod.fst, ka ≠ kb) :
    merge_files A [B] = [] := by
  show pd_merge A B = []
  exact pd_merge_disjoint_eq_nil A B h

/-- Witness for C6, at the one-row frames keyed `a` and `b`. -/
theorem merge_files_disjoint_keys_empty_witness :
    (∀ ka ∈ ([("a", [(1 : ℚ)])] : PTable).map Prod.fst,
      ∀ kb ∈ ([("b", [(2 : ℚ)])] : PTable).map Prod.fst, ka ≠ kb) ∧
    merge_files [("a", [(1 : ℚ)])] [[("b", [(2 : ℚ)])]] = [] :=
  ⟨by decide, merge_files_disjoint_keys_empty _ _ (by decide)⟩

/-- C8: every table derived by the aggregation helpers — the sum table of
`add_sum_by_group` and each of the ten statistic tables produced by
`add_calculation_by_group` — carries the group-key column, named exactly like
the input's group key, as its first column. -/
theorem aggregate_tables_key_first_column (df : List Row) (g c : String) :
    (add_sum_by_group df g c).columns.head? = some g ∧
    (add_calculation_by_group df g c).size.columns.head? = some g ∧
    (add_calculation_by_group df g c).mean.columns.head? = some g ∧
    (add_calculation_by_group df g c).var.columns.head? = some g ∧
    (add_calculation_by_group df g c).sem.columns.head? = some g ∧
    (add_calculation_by_group df g c).std.columns.head? = some g ∧
    (add_calculation_by_group df g c).median.columns.head? = some g ∧
    (add_calculation_by_group df g c).min.columns.head? = some g ∧
    (add_calculation_by_group df g c).max.columns.head? = some g ∧
    (add_calculation_by_group df g c).sum.columns.head? = some g ∧
    (add_calculation_by_group df g c).prod.columns.head? = some g :=
  ⟨rfl, rfl, rfl, rfl, rfl, rfl, rfl, rfl, rfl, rfl, rfl⟩

/-- C10: `read_file_line` always returns a non-empty list whose last element
is the empty string, and it stops at the first line that is empty after
stripping: when the raw lines split as `pre ++ e :: suf` with every line of
`pre` stripping non-empty and `e` stripping empty, the result is the stripped
`pre` followed by the empty string — nothing of `suf` is ever returned. -/
theorem read_file_line_stops_at_blank (lines : List String) :
    read_file_line lines ≠ [] ∧
    (read_file_line lines).getLast? = some "" ∧
    ∀ pre e suf, lines = pre ++ e :: suf → py_strip e = "" →
      (∀ l ∈ pre, py_strip l ≠ "") →
      read_file_line lines = pre.map py_strip ++ [""] := by
  refine ⟨?_, ?_, ?_⟩
  · rw [read_file_line_eq]
    simp
  · rw [read_file_line_eq]
    exact List.getLast?_concat _
  · intro pre e suf hsplit he hpre
    subst hsplit
    rw [read_file_line_eq]
    have htake : (pre ++ e :: suf).takeWhile (fun l => !(py_strip l == "")) = pre := by
      refine takeWhile_append_cons _ pre e suf (fun l hl => ?_) (by simp [he])
      simp [hpre l hl]
    rw [htake]

/-- Witness for C10, at the raw lines `["a ", "", "b"]`: the blank second
line stops the read and the content `b` after it is dropped. -/
theorem read_file_line_stops_at_blank_witness :
    ((["a ", "", "b"] : List String) = ["a "] ++ "" :: ["b"] ∧
      py_strip "" = "" ∧ (∀ l ∈ (["a "] : List String), py_strip l ≠ "")) ∧
    read_file_line ["a ", "", "b"] = ["a "].map py_strip ++ [""] :=
  ⟨⟨by decide, by decide, by decide⟩,
   ((read_file_line_stops_at_blank ["a ", "", "b"]).2.2 ["a "] "" ["b"]
     (by decide) (by decide) (by decide))⟩

/-- C4: in the tables built by `add_calculation_by_group`, a group containing
exactly one row has NaN (`none`) variance, standard error and standard
deviation, while its count, mean, median, min, max, sum and product are all
defined. -/
theorem add_calculation_by_group_singleton_nan (df : List Row) (g c : String)
    (hg : g ∈ groupKeys df) (h1 : (valuesOf df g).length = 1) :
    (add_calculation_by_group df g c).var.rows.lookup g = some none ∧
    (add_calculation_by_group df g c).sem.rows.lookup g = some none ∧
    (add_calculation_by_group df g c).std.rows.lookup g = some none ∧
    (add_calculation_by_group df g c).size.rows.lookup g = some 1 ∧
    (∃ m, (add_calculation_by_group df g c).mean.rows.lookup g = some (some m)) ∧
    (∃ m, (add_calculation_by_group df g c).median.rows.lookup g = some (some m)) ∧
    (∃ m, (add_calculation_by_group df g c).min.rows.lookup g = some (some m)) ∧
    (∃ m, (add_calculation_by_group df g c).max.rows.lookup g = some (some m)) ∧
    (∃ s, (add_calculation_by_group df g c).sum.rows.lookup g = some s) ∧
    (∃ p, (add_calculation_by_group df g c).prod.rows.lookup g = some p) := by
  obtain ⟨a, ha⟩ := List.length_eq_one.mp h1
  have hvar : column_var (valuesOf df g) = none := by
    simp [column_var, h1]
  have hsem : column_sem (valuesOf df g) = none := by
    simp [column_sem, column_std, hvar]
  have hstd : column_std (valuesOf df g) = none := by
    simp [column_std, hvar]
  have hsize : column_size (valuesOf df g) = 1 := h1
  have hmean : ∃ m, column_mean (valuesOf df g) = some m := by
    simp [column_mean, h1]
  have hmedian : ∃ m, column_median (valuesOf df g) = some m := by
    simp [column_median, ha]
  have hmin : ∃ m, column_min (valuesOf df g) = some m := by
    simp [column_min, ha]
  have hmax : ∃ m, column_max (valuesOf df g) = some m := by
    simp [column_max, ha]
  obtain ⟨m₁, hm₁⟩ := hmean
  obtain ⟨m₂, hm₂⟩ := hmedian
  obtain ⟨m₃, hm₃⟩ := hmin
  obtain ⟨m₄, hm₄⟩ := hmax
  refine ⟨?_, ?_, ?_, ?_, ⟨m₁, ?_⟩, ⟨m₂, ?_⟩, ⟨m₃, ?_⟩, ⟨m₄, ?_⟩,
    ⟨column_sum (valuesOf df g), ?_⟩, ⟨column_prod (valuesOf df g), ?_⟩⟩
  · exact (lookup_map_self (groupKeys df)
      (fun k => column_var (valuesOf df k)) g hg).trans (by rw [hvar])
  · exact (lookup_map_self (groupKeys df)
      (fun k => column_sem (valuesOf df k)) g hg).trans (by rw [hsem])
  · exact (lookup_map_self (groupKeys df)
      (fun k => column_std (valuesOf df k)) g hg).trans (by rw [hstd])
  · exact (lookup_map_self (groupKeys df)
      (fun k => column_size (valuesOf df k)) g hg).trans (by rw [hsize])
  · exact (lookup_map_self (groupKeys df)
      (fun k => column_mean (valuesOf df k)) g hg).trans (by rw [hm₁])
  · exact (lookup_map_self (groupKeys df)
      (fun k => column_median (valuesOf df k)) g hg).trans (by rw [hm₂])
  · exact (lookup_map_self (groupKeys df)
      (fun k => column_min (valuesOf df k)) g hg).trans (by rw [hm₃])
  · exact (lookup_map_self (groupKeys df)
      (fun k => column_max (valuesOf df k)) g hg).trans (by rw [hm₄])
  · exact lookup_map_self (groupKeys df)
      (fun k => column_sum (valuesOf df k)) g hg
  · exact lookup_map_self (groupKeys df)
      (fun k => column_prod (valuesOf df k)) g hg

/-- Witness for C4, at the one-row frame whose single group `a` holds the
value 5. -/
theorem add_calculation_by_group_singleton_nan_witness :
    ("a" ∈ groupKeys [⟨"a", 5⟩] ∧ (valuesOf [⟨"a", 5⟩] "a").length = 1) ∧
    ((add_calculation_by_group [⟨"a", 5⟩] "a" "v").var.rows.lookup "a" = some none ∧
     (add_calculation_by_group [⟨"a", 5⟩] "a" "v").sem.rows.lookup "a" = some none ∧
     (add_calculation_by_group [⟨"a", 5⟩] "a" "v").std.rows.lookup "a" = some none ∧
     (add_calculation_by_group [⟨"a", 5⟩] "a" "v").size.rows.lookup "a" = some 1 ∧
     (∃ m, (add_calculation_by_group [⟨"a", 5⟩] "a" "v").mean.rows.lookup "a" = some (some m)) ∧
     (∃ m, (add_calculation_by_group [⟨"a", 5⟩] "a" "v").median.rows.lookup "a" = some (some m)) ∧
     (∃ m, (add_calculation_by_group [⟨"a", 5⟩] "a" "v").min.rows.lookup "a" = some (some m)) ∧
     (∃ m, (add_calculation_by_group [⟨"a", 5⟩] "a" "v").max.rows.lookup "a" = some (some m)) ∧
     (∃ s, (add_calculation_by_group [⟨"a", 5⟩] "a" "v").sum.rows.lookup "a" = some s) ∧
     (∃ p, (add_calculation_by_group [⟨"a", 5⟩] "a" "v").prod.rows.lookup "a" = some p)) :=
  ⟨⟨by decide, by decide⟩,
   add_calculation_by_group_singleton_nan [⟨"a", 5⟩] "a" "v"
     (by decide) (by decide)⟩

theorem flatMap_congr {α β : Type} (l : List α) (F G : α → List β)
    (h : ∀ a ∈ l, F a = G a) : l.flatMap F = l.flatMap G := by
  simp only [List.flatMap]
  rw [List.map_congr_left h]

theorem flatMap_filter_of_vanish {α β : Type} (q : α → Bool) (F : α → List β)
    (l : List α) :
    (∀ a ∈ l, q a = false → F a = []) →
      l.flatMap F = (l.filter q).flatMap F := by
  induction l with
  | nil => intro _; rfl
  | cons a as ih =>
    intro h
    have ih' := ih (fun x hx hqx => h x (List.mem_cons_of_mem a hx) hqx)
    by_cases hq : q a = true
    · simp [List.flatMap_cons, List.filter_cons, hq, ih']
    · have hF : F a = [] :=
        h a (List.mem_cons_self a as) (Bool.eq_false_iff.mpr hq)
    
      simp [List.flatMap_cons, List.filter_cons, Bool.eq_false_iff.mpr hq, hF, ih']

theorem pd_merge_assoc (A B C : PTable) :
    pd_merge (pd_merge A B) C = pd_merge A (pd_merge B C) := by
  simp only [pd_merge]
  rw [List.flatMap_assoc]
  refine flatMap_congr A _ _ (fun a _ => ?_)
  rw [List.flatMap_map, List.filter_flatMap, List.map_flatMap]
  rw [flatMap_filter_of_vanish (fun b => b.1 == a.1)
    (fun b => (((C.filter (fun c => c.1 == b.1)).map
      (fun c => (b.1, b.2 ++ c.2))).filter (fun r => r.1 == a.1)).map
        (fun r => (a.1, a.2 ++ r.2))) B ?vanish]
  case vanish =>
    intro b _ hb
    have hb' : (b.1 == a.1) = false := hb
    simp [List.filter_map, Function.comp_def, hb']
  refine flatMap_congr _ _ _ (fun b hb => ?_)
  have hkey' : b.1 = a.1 := by
    have hkey : (b.1 == a.1) = true := (List.mem_filter.mp hb).2
    simpa using hkey
  rw [hkey']
  simp [List.filter_map, Function.comp_def, List.map_map, List.append_assoc]

/-- C7: when the join key occurs at most once in every frame, the sequential
inner join is associative up to row order: folding `merge_files` over
`A, B, C` left to right and joining `A` with the prior join of `B` and `C`
yield the same rows.  (The underlying join is in fact associative as a plain
list equation, with no cardinality hypothesis.) -/
theorem merge_files_assoc_perm (A B C : PTable)
    (hA : (A.map Prod.fst).Nodup) (hB : (B.map Prod.fst).Nodup)
    (hC : (C.map Prod.fst).Nodup) :
    (merge_files A [B, C]).Perm (merge_files A [pd_merge B C]) := by
  have h1 : merge_files A [B, C] = pd_merge (pd_merge A B) C := rfl
  have h2 : merge_files A [pd_merge B C] = pd_merge A (pd_merge B C) := rfl
  rw [h1, h2, pd_merge_assoc]

/-- Witness for C7, at three one-row frames sharing the key `a`. -/
theorem merge_files_assoc_perm_witness :
    ((([("a", [(1 : ℚ)])] : PTable).map Prod.fst).Nodup ∧
     (([("a", [(2 : ℚ)])] : PTable).map Prod.fst).Nodup ∧
     (([("a", [(3 : ℚ)])] : PTable).map Prod.fst).Nodup) ∧
    (merge_files [("a", [(1 : ℚ)])] [[("a", [(2 : ℚ)])], [("a", [(3 : ℚ)])]]).Perm
      (merge_files [("a", [(1 : ℚ)])] [pd_merge [("a", [(2 : ℚ)])] [("a", [(3 : ℚ)])]]) :=
  ⟨⟨by decide, by decide, by decide⟩,
   merge_files_assoc_perm [("a", [(1 : ℚ)])] [("a", [(2 : ℚ)])] [("a", [(3 : ℚ)])]
     (by decide) (by decide) (by decide)⟩

section RankLemma

variable {α : Type} [LinearOrder α]

theorem filter_lt_length_eq_card (l : List α) (hl : l.Nodup) (x : α) :
    (l.filter (fun y => decide (y < x))).length
      = (l.toFinset.filter (fun y => y < x)).card := by
  rw [← List.toFinset_card_of_nodup (hl.filter _)]
  congr 1
  ext y
  simp

theorem card_filter_lt_strict (s : Finset α) (x y : α) (hx : x ∈ s)
    (hxy : x < y) :
    (s.filter (fun z => z < x)).card < (s.filter (fun z => z < y)).card := by
  apply Finset.card_lt_card
  rw [Finset.ssubset_iff_of_subset
    (Finset.monotone_filter_right s (fun z hz => lt_trans hz hxy))]
  exact ⟨x, Finset.mem_filter.mpr ⟨hx, hxy⟩,
    fun hmem => lt_irrefl x (Finset.mem_filter.mp hmem).2⟩

theorem card_filter_lt_injOn (s : Finset α) (x : α) (hx : x ∈ s) (y : α)
    (hy : y ∈ s)
    (h : (s.filter (fun z => z < x)).card = (s.filter (fun z => z < y)).card) :
    x = y := by
  rcases lt_trichotomy x y with hlt | he | hgt
  · exact absurd h (Nat.ne_of_lt (card_filter_lt_strict s x y hx hlt))
  · exact he
  · exact absurd h (Nat.ne_of_gt (card_filter_lt_strict s y x hy hgt))

theorem image_card_filter_lt (s : Finset α) :
    s.image (fun x => (s.filter (fun z => z < x)).card)
      = Finset.range s.card := by
  apply Finset.eq_of_subset_of_card_le
  · intro n hn
    rw [Finset.mem_image] at hn
    obtain ⟨x, hx, rfl⟩ := hn
    rw [Finset.mem_range]
    calc (s.filter (fun z => z < x)).card
        ≤ (s.erase x).card :=
          Finset.card_le_card (fun z hz => Finset.mem_erase.mpr
            ⟨ne_of_lt (Finset.mem_filter.mp hz).2, (Finset.mem_filter.mp hz).1⟩)
      _ < s.card := Finset.card_erase_lt_of_mem hx
  · rw [Finset.card_range, Finset.card_image_of_injOn
      (fun x hx y hy h => card_filter_lt_injOn s x hx y hy h)]

theorem map_rank_perm_range (l : List α) (hl : l.Nodup) :
    (l.map (fun x => (l.filter (fun y => decide (y < x))).length)).Perm
      (List.range l.length) := by
  apply List.perm_of_nodup_nodup_toFinset_eq
  · refine hl.map_on ?_
    intro x hx y hy hxy
    refine card_filter_lt_injOn l.toFinset x (List.mem_toFinset.mpr hx)
      y (List.mem_toFinset.mpr hy) ?_
    rw [← filter_lt_length_eq_card l hl x, ← filter_lt_length_eq_card l hl y,
      hxy]
  · exact List.nodup_range _
  · have hmap : (l.map (fun x =>
        (l.filter (fun y => decide (y < x))).length)).toFinset
        = l.toFinset.image (fun x =>
            (l.filter (fun y => decide (y < x))).length) := by
      ext n
      simp
    rw [hmap]
    have hcongr : l.toFinset.image (fun x =>
        (l.filter (fun y => decide (y < x))).length)
        = l.toFinset.image (fun x =>
            (l.toFinset.filter (fun z => z < x)).card) := by
      apply Finset.image_congr
      intro x hx
      exact filter_lt_length_eq_card l hl x
    rw [hcongr, image_card_filter_lt, List.toFinset_card_of_nodup hl]
    ext n
    simp

end RankLemma

/-- C5: within every group of `N` rows, the `first`-method rank column of
`add_rank_by_group` is a permutation of `1..N` — each rank occurs exactly
once and there are no ties, because ties in the value are broken by the
original row position. -/
theorem add_rank_by_group_first_perm (df : List Row) (g : String) :
    (add_rank_by_group_first df g).Perm
      (List.range' 1 (group_idx df g).length) := by
  classical
  set idxs := group_idx df g with hidxs
  set f : Nat → ℚ ×ₗ ℕ := fun i => toLex (valueAt df i, i) with hf
  have hnod : idxs.Nodup := (List.nodup_range _).filter _
  have hpairs : (idxs.map f).Nodup := by
    refine hnod.map_on ?_
    intro i _ j _ hij
    have hpair : ((valueAt df i, i) : ℚ × ℕ) = (valueAt df j, j) :=
      congrArg (fun x => ofLex x) hij
    exact (Prod.mk.injEq _ _ _ _).mp hpair |>.2
  have hkey : ∀ i ∈ idxs, keyAt df i = g := by
    intro i hi
    have hmem := (List.mem_filter.mp hi).2
    simpa using hmem
  have hrank : ∀ i ∈ idxs, first_rank df i
      = 1 + ((idxs.map f).filter (fun y => decide (y < f i))).length := by
    intro i hi
    rw [first_rank, hkey i hi, ← hidxs]
    congr 1
    rw [List.filter_map]
    rw [List.length_map]
    refine congrArg List.length ?_
    refine List.filter_congr ?_
    intro j _
    refine decide_eq_decide.mpr ?_
    exact (Prod.Lex.lt_iff (valueAt df j, j) (valueAt df i, i)).symm
  have h1 : add_rank_by_group_first df g
      = ((idxs.map f).map (fun x =>
          ((idxs.map f).filter (fun y => decide (y < x))).length)).map
            (fun n => 1 + n) := by
    rw [add_rank_by_group_first, ← hidxs, List.map_map, List.map_map]
    exact List.map_congr_left hrank
  rw [h1]
  have hperm := (map_rank_perm_range (idxs.map f) hpairs).map (fun n => 1 + n)
  rw [List.length_map] at hperm
  have hrange : (List.range idxs.length).map (fun n => 1 + n)
      = List.range' 1 idxs.length := by
    rw [List.range'_eq_map_range]
  exact hperm.trans (hrange ▸ List.Perm.refl _)
